import Mathlib

/-!
Shallow embedding of the B+Tree index of src/PP3/src/btree.cpp.

Pages are modelled as values in a page store indexed by PageId (a Nat,
with 0 the "no page" sentinel).  Node capacities INTARRAYLEAFSIZE and
INTARRAYNONLEAFSIZE are passed as explicit parameters L and N, because
they are defined in the missing header btree.h.  Keys are C ints; only
comparison and copying is performed on them, so they are modelled as Int.
-/

namespace BadgerDB

/-- A record identifier: a (page number, slot number) pair. -/
structure RecordId where
  page_number : Nat
  slot_number : Nat
deriving DecidableEq, Repr

/-- The all-zero RecordId, marking an unoccupied leaf slot. -/
def emptyRid : RecordId := ⟨0, 0⟩

/-- Scan comparison operators. -/
inductive Operator where
  | LT
  | LTE
  | GTE
  | GT
deriving DecidableEq, Repr

/-- Attribute datatypes of the storage engine. -/
inductive Datatype where
  | INTEGER
  | DOUBLE
  | STRING
deriving DecidableEq, Repr

/-- The error kinds the code can raise on the paths modelled here.
invalidPage models a buffer-manager exception from reading a page
that does not exist (in particular the PageId 0 sentinel). -/
inductive BtreeError where
  | badOpcodes
  | badScanrange
  | scanNotInitialized
  | indexScanCompleted
  | invalidPage
deriving DecidableEq, Repr

/-- Leaf node image: parallel key and rid arrays (length L) plus the
right sibling page number (0 if none). -/
structure LeafNodeInt where
  keyArray : List Int
  ridArray : List RecordId
  rightSibPageNo : Nat
deriving DecidableEq, Repr

/-- Non-leaf node image: key array (length N) and child page array
(length N + 1). -/
structure NonLeafNodeInt where
  keyArray : List Int
  pageNoArray : List Nat
deriving DecidableEq, Repr

/-- Modelled from the spec: btree.h with the node layouts is missing from
the sources.  Per the spec, the first 4 bytes of a page discriminate leaf
pages (value -1, set when a leaf node is constructed) from non-leaf pages
(zero).  The discriminant is modelled by this inductive tag. -/
inductive Node where
  | leaf (node : LeafNodeInt)
  | nonleaf (node : NonLeafNodeInt)
deriving DecidableEq, Repr

/-- The index file contents: pages (page i + 1 is entry i of the list)
together with the rootPageNo field of the in-memory meta record. -/
structure BTree where
  pages : List Node
  rootPageNo : Nat
deriving DecidableEq, Repr

/-- Modelled from the spec: the buffer manager is an external collaborator;
its read_page contract pins an existing page.  PageId 0 is the "no page"
sentinel, so reading page 0, or a never-allocated page, fails (none). -/
def getPageByPid (t : BTree) (pid : Nat) : Option Node :=
  if pid = 0 then none else t.pages.get? (pid - 1)

/-- Overwrite the page buffer at pid from a node image (setNode followed
by an unpin-dirty). -/
def setPage (t : BTree) (pid : Nat) (nd : Node) : BTree :=
  { t with pages := t.pages.set (pid - 1) nd }

/-- Allocate a fresh page holding the given node image and return its id
(createPageForNode). -/
def allocPage (t : BTree) (nd : Node) : BTree × Nat :=
  ({ t with pages := t.pages ++ [nd] }, t.pages.length + 1)

/-- A zero-initialised leaf node of capacity L. -/
def emptyLeaf (L : Nat) : LeafNodeInt :=
  { keyArray := List.replicate L 0
    ridArray := List.replicate L emptyRid
    rightSibPageNo := 0 }

/-- findArrayIndex: first index i below len with key le arr i (or strictly
below when includeCurrentKey is false); none models the C result -1. -/
def findArrayIndex (arr : List Int) (len : Nat) (key : Int)
    (includeCurrentKey : Bool) : Option Nat :=
  (arr.take len).findIdx? (fun a =>
    if includeCurrentKey then decide (a ≥ key) else decide (a > key))

/-- getLeafLen: index of the first empty rid slot, else the capacity. -/
def getLeafLen (node : LeafNodeInt) : Nat :=
  match node.ridArray.findIdx? (fun r => r == emptyRid) with
  | some i => i
  | none => node.ridArray.length

/-- getNonLeafLen: smallest i in [1, N] with pageNoArray i = 0, else N+1. -/
def getNonLeafLen (node : NonLeafNodeInt) : Nat :=
  match (node.pageNoArray.drop 1).findIdx? (fun p => p == 0) with
  | some i => i + 1
  | none => node.pageNoArray.length

/-- isLeafNodeFull: the last rid slot is occupied. -/
def isLeafNodeFull (L : Nat) (node : LeafNodeInt) : Bool :=
  node.ridArray.getD (L - 1) emptyRid != emptyRid

/-- isNonLeafNodeFull: the last child-pointer slot is occupied. -/
def isNonLeafNodeFull (N : Nat) (node : NonLeafNodeInt) : Bool :=
  node.pageNoArray.getD N 0 != 0

/-- findIndexNonLeaf: descent index; the largest index when not found. -/
def findIndexNonLeaf (node : NonLeafNodeInt) (key : Int) : Nat :=
  let len := getNonLeafLen node
  match findArrayIndex node.keyArray (len - 1) key true with
  | none => len - 1
  | some i => i

/-- findInsertionIndexLeaf: next insertion index when not found. -/
def findInsertionIndexLeaf (node : LeafNodeInt) (key : Int) : Nat :=
  let len := getLeafLen node
  match findArrayIndex node.keyArray len key true with
  | none => len
  | some i => i

/-- findScanIndexLeaf: none models the C result -1. -/
def findScanIndexLeaf (node : LeafNodeInt) (key : Int)
    (includeCurrentKey : Bool) : Option Nat :=
  findArrayIndex node.keyArray (getLeafLen node) key includeCurrentKey

/-- splitNonLeafNode: returns (original after the split, new right node).
With moveKeyUp the keys from index on are copied to the new node; without
it the keys strictly after index are copied and the key at index is left
to be promoted.  Child pointers after index move in both cases; the moved
regions of the original are zeroed. -/
def splitNonLeafNode (N : Nat) (node : NonLeafNodeInt) (index : Nat)
    (moveKeyUp : Bool) : NonLeafNodeInt × NonLeafNodeInt :=
  let newKeys :=
    if moveKeyUp then node.keyArray.drop index ++ List.replicate index 0
    else node.keyArray.drop (index + 1) ++ List.replicate (index + 1) 0
  let newNode : NonLeafNodeInt :=
    { keyArray := newKeys
      pageNoArray := node.pageNoArray.drop (index + 1) ++ List.replicate (index + 1) 0 }
  let orig : NonLeafNodeInt :=
    { keyArray := node.keyArray.take index ++ List.replicate (N - index) 0
      pageNoArray := node.pageNoArray.take (index + 1) ++ List.replicate (N - index) 0 }
  (orig, newNode)

/-- splitLeafNode: returns (original after the split, new right leaf);
entries from index on move to the new leaf and are zeroed in the original. -/
def splitLeafNode (L : Nat) (node : LeafNodeInt) (index : Nat) :
    LeafNodeInt × LeafNodeInt :=
  let newNode : LeafNodeInt :=
    { keyArray := node.keyArray.drop index ++ List.replicate index 0
      ridArray := node.ridArray.drop index ++ List.replicate index emptyRid
      rightSibPageNo := 0 }
  let orig : LeafNodeInt :=
    { keyArray := node.keyArray.take index ++ List.replicate (L - index) 0
      ridArray := node.ridArray.take index ++ List.replicate (L - index) emptyRid
      rightSibPageNo := node.rightSibPageNo }
  (orig, newNode)

/-- insertToNonLeafNode: shift keys from index and children from index+1
one slot right (dropping the last slot) and write the new key and child. -/
def insertToNonLeafNode (N : Nat) (node : NonLeafNodeInt) (index : Nat)
    (key : Int) (pageID : Nat) : NonLeafNodeInt :=
  { keyArray := (node.keyArray.take index ++ key :: node.keyArray.drop index).take N
    pageNoArray :=
      (node.pageNoArray.take (index + 1) ++ pageID :: node.pageNoArray.drop (index + 1)).take (N + 1) }

/-- insertToLeafNode: shift entries from index one slot right (dropping
the last slot) and write the new key and rid. -/
def insertToLeafNode (L : Nat) (node : LeafNodeInt) (index : Nat)
    (key : Int) (rid : RecordId) : LeafNodeInt :=
  { keyArray := (node.keyArray.take index ++ key :: node.keyArray.drop index).take L
    ridArray := (node.ridArray.take index ++ rid :: node.ridArray.drop index).take L
    rightSibPageNo := node.rightSibPageNo }

/-- insertToLeafPage: insert (key, rid) into the leaf pinned at
origPageId, splitting it when full.  Returns the new tree, the new page
id (0 when no split) and the value written through the midVal pointer
(0 models the unassigned pointer when no split happens). -/
def insertToLeafPage (L : Nat) (t : BTree) (origPageId : Nat)
    (origNode : LeafNodeInt) (key : Int) (rid : RecordId) :
    BTree × Nat × Int :=
  let index := findInsertionIndexLeaf origNode key
  if !(isLeafNodeFull L origNode) then
    (setPage t origPageId (.leaf (insertToLeafNode L origNode index key rid)), 0, 0)
  else
    let middleIndex := L / 2
    let insertToLeft : Bool := decide (index < middleIndex)
    let halves := splitLeafNode L origNode (middleIndex + (if insertToLeft then 1 else 0))
    let origNode1 := if insertToLeft then insertToLeafNode L halves.1 index key rid else halves.1
    let newNode1 :=
      if insertToLeft then halves.2
      else insertToLeafNode L halves.2 (index - middleIndex) key rid
    let alloc := allocPage t (.leaf newNode1)
    let newPageId := alloc.2
    let newNode2 := { newNode1 with rightSibPageNo := origNode1.rightSibPageNo }
    let origNode2 := { origNode1 with rightSibPageNo := newPageId }
    let t2 := setPage (setPage alloc.1 origPageId (.leaf origNode2)) newPageId (.leaf newNode2)
    (t2, newPageId, newNode2.keyArray.getD 0 0)

/-- The step insertHelper takes on a non-leaf whose child recursion
returned a split (newChildMidVal, newChildPageId): plain insertion when
the node is not full, else the split with the middle-index, split-index,
insert-index and moveKeyUp arithmetic of the source. -/
def nonLeafInsertStep (N : Nat) (t1 : BTree) (origPageId : Nat)
    (origNode : NonLeafNodeInt) (newChildMidVal : Int) (newChildPageId : Nat) :
    BTree × Nat × Int :=
  let index := findIndexNonLeaf origNode newChildMidVal
  if !(isNonLeafNodeFull N origNode) then
    (setPage t1 origPageId
        (.nonleaf (insertToNonLeafNode N origNode index newChildMidVal newChildPageId)),
      0, 0)
  else
    let middleIndex := (N - 1) / 2
    let insertToLeft : Bool := decide (index < middleIndex)
    let splitIndex := middleIndex + (if insertToLeft then 1 else 0)
    let insertIndex := if insertToLeft then index else index - middleIndex
    let moveKeyUp : Bool := !insertToLeft && insertIndex == 0
    let midVal :=
      if moveKeyUp then newChildMidVal else origNode.keyArray.getD splitIndex 0
    let halves := splitNonLeafNode N origNode splitIndex moveKeyUp
    let origNode1 :=
      if !moveKeyUp && insertToLeft then
        insertToNonLeafNode N halves.1 insertIndex newChildMidVal newChildPageId
      else halves.1
    let newNode1 :=
      if !moveKeyUp && !insertToLeft then
        insertToNonLeafNode N halves.2 insertIndex newChildMidVal newChildPageId
      else halves.2
    let t2 := setPage t1 origPageId (.nonleaf origNode1)
    let alloc := allocPage t2 (.nonleaf newNode1)
    (alloc.1, alloc.2, midVal)

/-- insertHelper: recursive descent insert.  Returns none when a page
read fails (buffer-manager exception) or the fuel is exhausted; otherwise
some (tree, newPageId, midVal) where newPageId = 0 means no split bubbled
up (midVal is then the unassigned-pointer model value 0). -/
def insertHelper (L N : Nat) : Nat → BTree → Nat → Int → RecordId →
    Option (BTree × Nat × Int)
  | 0, _, _, _, _ => none
  | fuel + 1, t, origPageId, key, rid =>
    match getPageByPid t origPageId with
    | none => none
    | some (.leaf node) => some (insertToLeafPage L t origPageId node key rid)
    | some (.nonleaf origNode) =>
      (insertHelper L N fuel t
          (origNode.pageNoArray.getD (findIndexNonLeaf origNode key) 0) key rid).map
        (fun r =>
          if r.2.1 = 0 then (r.1, 0, 0)
          else nonLeafInsertStep N r.1 origPageId origNode r.2.2 r.2.1)

/-- insertEntry at the tree level: run insertHelper from the root; on a
split, allocate a new root non-leaf and update rootPageNo in the meta
record. -/
def insertEntry (L N fuel : Nat) (t : BTree) (key : Int) (rid : RecordId) :
    Option BTree :=
  match insertHelper L N fuel t t.rootPageNo key rid with
  | none => none
  | some (t1, newPageId, splittedPageMidval) =>
    if newPageId = 0 then some t1
    else
      let newRoot : NonLeafNodeInt :=
        { keyArray := splittedPageMidval :: List.replicate (N - 1) 0
          pageNoArray := t.rootPageNo :: newPageId :: List.replicate (N - 1) 0 }
      let alloc := allocPage t1 (.nonleaf newRoot)
      some { alloc.1 with rootPageNo := alloc.2 }

/-- The tree created by the constructor before bulk build: a single page
holding an empty leaf, which is the root. -/
def newBTree (L : Nat) : BTree :=
  { pages := [Node.leaf (emptyLeaf L)], rootPageNo := 1 }

/-- Fold a list of (key, rid) entries through insertEntry. -/
def insertAll (L N fuel : Nat) (t : BTree) (entries : List (Int × RecordId)) :
    Option BTree :=
  entries.foldl (fun acc e => acc.bind (fun t1 => insertEntry L N fuel t1 e.1 e.2)) (some t)

/-- The process-resident index object: the file contents plus the meta
fields and the transient scan state.  currentPageData holds the page id
of the page whose buffer the scan has pinned (the C pointer), 0 if none. -/
structure BTreeIndex where
  tree : BTree
  attributeType : Datatype
  attrByteOffset : Nat
  scanExecuting : Bool
  lowValInt : Int
  highValInt : Int
  lowOp : Operator
  highOp : Operator
  currentPageNum : Nat
  currentPageData : Nat
  nextEntry : Nat
deriving DecidableEq, Repr

/-- Read the page at pid as a leaf node (getLeafNodeFromPage on a pinned
page); none when the page cannot be read as a leaf. -/
def getLeafAt (t : BTree) (pid : Nat) : Option LeafNodeInt :=
  match getPageByPid t pid with
  | some (.leaf node) => some node
  | _ => none

/-- moveToNextPage: unpin the current page, follow rightSibPageNo and pin
it.  currentPageNum is assigned before the read, so on a failing read
(rightSibPageNo = 0 in particular) the error leaves currentPageNum
already updated and currentPageData and nextEntry untouched. -/
def moveToNextPage (idx : BTreeIndex) (node : LeafNodeInt) :
    Option BtreeError × BTreeIndex :=
  let idx1 := { idx with currentPageNum := node.rightSibPageNo }
  match getPageByPid idx.tree node.rightSibPageNo with
  | none => (some .invalidPage, idx1)
  | some _ =>
    (none, { idx1 with currentPageData := node.rightSibPageNo, nextEntry := 0 })

/-- initEntryIndex: position nextEntry at the first entry of the current
leaf satisfying the low bound, else move to the next leaf. -/
def initEntryIndex (idx : BTreeIndex) : Option BtreeError × BTreeIndex :=
  match getLeafAt idx.tree idx.currentPageData with
  | none => (some .invalidPage, idx)
  | some node =>
    match findScanIndexLeaf node idx.lowValInt (idx.lowOp == .GTE) with
    | none => moveToNextPage idx node
    | some entryIndex => (none, { idx with nextEntry := entryIndex })

/-- initPageId: descend from currentPageNum to the leaf containing the
low bound, pinning each page into currentPageData on the way. -/
def initPageId (fuel : Nat) (idx : BTreeIndex) : Option BtreeError × BTreeIndex :=
  match fuel with
  | 0 => (some .invalidPage, idx)
  | fuel + 1 =>
    match getPageByPid idx.tree idx.currentPageNum with
    | none => (some .invalidPage, idx)
    | some pg =>
      let idx1 := { idx with currentPageData := idx.currentPageNum }
      match pg with
      | .leaf _ => (none, idx1)
      | .nonleaf node =>
        initPageId fuel
          { idx1 with
            currentPageNum := node.pageNoArray.getD (findIndexNonLeaf node idx.lowValInt) 0 }

/-- setNextEntry: advance nextEntry; at the end of the page or at an
empty slot, follow the right sibling. -/
def setNextEntry (L : Nat) (idx : BTreeIndex) : Option BtreeError × BTreeIndex :=
  let idx1 := { idx with nextEntry := idx.nextEntry + 1 }
  match getLeafAt idx1.tree idx1.currentPageData with
  | none => (some .invalidPage, idx1)
  | some node =>
    if idx1.nextEntry ≥ L || (node.ridArray.getD idx1.nextEntry emptyRid).page_number == 0 then
      moveToNextPage idx1 node
    else (none, idx1)

/-- The descent-and-position tail of startScan: initPageId then, when it
did not raise, initEntryIndex. -/
def startScanPosition (fuel : Nat) (idx : BTreeIndex) :
    Option BtreeError × BTreeIndex :=
  match initPageId fuel idx with
  | (some e, idx3) => (some e, idx3)
  | (none, idx3) => initEntryIndex idx3

/-- startScan: validate the operators, record the bounds, validate the
range, record the operators, mark the scan executing, then descend and
position.  The returned state carries every mutation made before a raise. -/
def startScan (fuel : Nat) (idx : BTreeIndex) (lowValParm : Int)
    (lowOpParm : Operator) (highValParm : Int) (highOpParm : Operator) :
    Option BtreeError × BTreeIndex :=
  if !(lowOpParm == .GT) && !(lowOpParm == .GTE) then (some .badOpcodes, idx)
  else if !(highOpParm == .LT) && !(highOpParm == .LTE) then (some .badOpcodes, idx)
  else
    let idx1 := { idx with lowValInt := lowValParm, highValInt := highValParm }
    if decide (idx1.lowValInt > idx1.highValInt) then (some .badScanrange, idx1)
    else
      startScanPosition fuel
        { idx1 with
          lowOp := lowOpParm, highOp := highOpParm,
          scanExecuting := true,
          currentPageNum := idx1.tree.rootPageNo }

/-- scanNext: the out parameter is modelled by threading its previous
value outRid; the third component of the result is its final value. -/
def scanNext (L : Nat) (idx : BTreeIndex) (outRid : RecordId) :
    Option BtreeError × BTreeIndex × RecordId :=
  if !idx.scanExecuting then (some .scanNotInitialized, idx, outRid)
  else
    match getLeafAt idx.tree idx.currentPageData with
    | none => (some .invalidPage, idx, outRid)
    | some node =>
      let r := node.ridArray.getD idx.nextEntry emptyRid
      if r == emptyRid then (some .indexScanCompleted, idx, r)
      else
        let val := node.keyArray.getD idx.nextEntry 0
        if decide (val > idx.highValInt) then (some .indexScanCompleted, idx, r)
        else if val == idx.highValInt && idx.highOp == .LT then
          (some .indexScanCompleted, idx, r)
        else
          let adv := setNextEntry L idx
          (adv.1, adv.2, r)

/-- endScan: require an executing scan, clear the flag and unpin. -/
def endScan (idx : BTreeIndex) : Option BtreeError × BTreeIndex :=
  if !idx.scanExecuting then (some .scanNotInitialized, idx)
  else (none, { idx with scanExecuting := false })

/-- Modelled from the spec: the constructor initialises the file with an
empty leaf root; the scan-state members are not initialised by the C++
constructor (btree.h is missing), so the model gives them fixed defaults. -/
def mkBTreeIndex (L attrByteOffset : Nat) (attrType : Datatype) : BTreeIndex :=
  { tree := newBTree L
    attributeType := attrType
    attrByteOffset := attrByteOffset
    scanExecuting := false
    lowValInt := 0
    highValInt := 0
    lowOp := .LT
    highOp := .LT
    currentPageNum := 0
    currentPageData := 0
    nextEntry := 0 }

/-- Key extraction of the constructor: the 32-bit signed integer in host
(little-endian) byte order at attrByteOffset of the raw record. -/
def readInt32 (record : List Nat) (off : Nat) : Int :=
  let b0 := record.getD off 0 % 256
  let b1 := record.getD (off + 1) 0 % 256
  let b2 := record.getD (off + 2) 0 % 256
  let b3 := record.getD (off + 3) 0 % 256
  let u := b0 + 256 * b1 + 65536 * b2 + 16777216 * b3
  if u < 2147483648 then (u : Int) else (u : Int) - 4294967296

/-- insertEntry at the index-object level: the tree in the file is
updated, every other member is untouched. -/
def insertEntryIdx (L N fuel : Nat) (idx : BTreeIndex) (key : Int)
    (rid : RecordId) : Option BTreeIndex :=
  (insertEntry L N fuel idx.tree key rid).map (fun t => { idx with tree := t })

/-- The constructor with bulk build: create the fresh index then insert
an entry for every record of the relation scan, extracting the key at
attrByteOffset.  none models a propagated buffer-manager failure. -/
def buildIndex (L N fuel : Nat) (attrType : Datatype) (off : Nat)
    (records : List (List Nat × RecordId)) : Option BTreeIndex :=
  records.foldl
    (fun acc r =>
      acc.bind (fun idx => insertEntryIdx L N fuel idx (readInt32 r.1 off) r.2))
    (some (mkBTreeIndex L off attrType))

/-- Replace the stored attribute type, leaving every other member alone
(used to state that no operation consults the attribute type). -/
def setAttr (idx : BTreeIndex) (a : Datatype) : BTreeIndex :=
  { idx with attributeType := a }

/-- The occupied (key, rid) entries of the leaves in rightSibPageNo order
starting from the given page. -/
def chainEntries (t : BTree) : Nat → Nat → List (Int × RecordId)
  | 0, _ => []
  | fuel + 1, pid =>
    if pid = 0 then []
    else
      match getPageByPid t pid with
      | some (.leaf node) =>
        (node.keyArray.zip node.ridArray).take (getLeafLen node) ++
          chainEntries t fuel node.rightSibPageNo
      | _ => []

/-- The key sequence of the leaf chain, starting from page 1: the initial
root leaf, which stays the leftmost leaf because every split moves the
upper half of a leaf to a freshly allocated page. -/
def chainKeys (t : BTree) (fuel : Nat) : List Int :=
  (chainEntries t fuel 1).map Prod.fst

/-- A key sequence is non-decreasing (the order the leaf-chain invariant
of the spec demands). -/
def nonDecreasing : List Int → Bool
  | [] => true
  | [_] => true
  | a :: b :: rest => decide (a ≤ b) && nonDecreasing (b :: rest)

/-- Modelled from the spec: the node capacities INTARRAYLEAFSIZE and
INTARRAYNONLEAFSIZE live in the missing header btree.h; the spec fixes
them only as configuration constants and its concrete scenarios use
L = 4, N = 4, which this development adopts for concrete runs. -/
def INTARRAYLEAFSIZE : Nat := 4

/-- Modelled from the spec: see INTARRAYLEAFSIZE. -/
def INTARRAYNONLEAFSIZE : Nat := 4

/-- The entries 1..14 with distinct rids, the failing insertion sequence
for the leaf-chain invariant. -/
def c1entries : List (Int × RecordId) :=
  [(1, ⟨1, 1⟩), (2, ⟨2, 1⟩), (3, ⟨3, 1⟩), (4, ⟨4, 1⟩), (5, ⟨5, 1⟩),
   (6, ⟨6, 1⟩), (7, ⟨7, 1⟩), (8, ⟨8, 1⟩), (9, ⟨9, 1⟩), (10, ⟨10, 1⟩),
   (11, ⟨11, 1⟩), (12, ⟨12, 1⟩), (13, ⟨13, 1⟩), (14, ⟨14, 1⟩)]

/-- A full leaf node with keys 1..4, used as a concrete witness input. -/
def fullLeafNode : LeafNodeInt :=
  { keyArray := [1, 2, 3, 4]
    ridArray := [⟨1, 1⟩, ⟨2, 1⟩, ⟨3, 1⟩, ⟨4, 1⟩]
    rightSibPageNo := 0 }

/-- A one-page tree whose root is fullLeafNode. -/
def fullLeafTree : BTree :=
  { pages := [Node.leaf fullLeafNode], rootPageNo := 1 }

/-- The index after inserting the single entry (42, (5, 7)) into a fresh
index (the single-insert scenario of the spec). -/
def singleEntryIndex : BTreeIndex :=
  match insertEntry 4 4 8 (newBTree 4) 42 ⟨5, 7⟩ with
  | some t => { mkBTreeIndex 4 0 .INTEGER with tree := t }
  | none => mkBTreeIndex 4 0 .INTEGER

/-- singleEntryIndex with the scan [0, GTE, 100, LTE] started (the call
succeeds and positions at entry 0 of the root leaf). -/
def activeScanIndex : BTreeIndex :=
  (startScan 8 singleEntryIndex 0 .GTE 100 .LTE).2

/-- activeScanIndex after endScan: an idle index whose lowValInt is 0,
reached by a normal start/end scan round. -/
def idleScanIndex : BTreeIndex := (endScan activeScanIndex).2

/-- Witness input for C3: the tree after inserting keys 1..12, whose
root (page 3) is a full non-leaf. -/
def t12 : BTree := (insertAll 4 4 8 (newBTree 4) (c1entries.take 12)).getD (newBTree 4)

/-- Witness input for C3: the child split result bubbling out of leaf 6
when key 13 is inserted into t12. -/
def c3childResult : BTree × Nat × Int :=
  (insertHelper 4 4 7 t12 6 13 ⟨13, 1⟩).getD (t12, 0, 0)

/-- Witness input for C4: result of the non-split recursive insert of
key 1 into a fresh tree. -/
def c4noSplitResult : BTree × Nat × Int :=
  (insertHelper 4 4 8 (newBTree 4) 1 1 ⟨1, 1⟩).getD (newBTree 4, 0, 0)

/-! ## Helper lemmas about the page store -/

theorem getPageByPid_setPage_self (t : BTree) (pid : Nat) (nd : Node)
    (h0 : pid ≠ 0) (h : pid - 1 < t.pages.length) :
    getPageByPid (setPage t pid nd) pid = some nd := by
  unfold getPageByPid setPage
  simp only [h0, if_false]
  exact List.get?_set_eq_of_lt nd h

theorem getPageByPid_setPage_ne (t : BTree) (p q : Nat) (nd : Node)
    (hp : p ≠ 0) (hq : q ≠ 0) (hne : p ≠ q) :
    getPageByPid (setPage t p nd) q = getPageByPid t q := by
  unfold getPageByPid setPage
  simp only [hq, if_false]
  exact List.get?_set_ne nd _ (by omega)

theorem getPageByPid_alloc_self (t : BTree) (nd : Node) :
    getPageByPid (allocPage t nd).1 (t.pages.length + 1) = some nd := by
  unfold getPageByPid allocPage
  simp only [Nat.succ_ne_zero, if_false, Nat.add_sub_cancel]
  exact List.get?_concat_length _ _

theorem getPageByPid_alloc_of_lt (t : BTree) (nd : Node) (pid : Nat)
    (h0 : pid ≠ 0) (h : pid - 1 < t.pages.length) :
    getPageByPid (allocPage t nd).1 pid = getPageByPid t pid := by
  unfold getPageByPid allocPage
  simp only [h0, if_false]
  exact List.get?_append h

theorem setPage_rootPageNo (t : BTree) (pid : Nat) (nd : Node) :
    (setPage t pid nd).rootPageNo = t.rootPageNo := rfl

theorem allocPage_rootPageNo (t : BTree) (nd : Node) :
    (allocPage t nd).1.rootPageNo = t.rootPageNo := rfl

theorem setPage_pages_length (t : BTree) (pid : Nat) (nd : Node) :
    (setPage t pid nd).pages.length = t.pages.length := by
  simp [setPage]

theorem allocPage_pages_length (t : BTree) (nd : Node) :
    (allocPage t nd).1.pages.length = t.pages.length + 1 := by
  simp [allocPage]

theorem insertToLeafPage_rootPageNo (L : Nat) (t : BTree) (pid : Nat)
    (node : LeafNodeInt) (key : Int) (rid : RecordId) :
    (insertToLeafPage L t pid node key rid).1.rootPageNo = t.rootPageNo := by
  unfold insertToLeafPage
  split <;> rfl

theorem nonLeafInsertStep_rootPageNo (N : Nat) (t1 : BTree) (pid : Nat)
    (origNode : NonLeafNodeInt) (mid : Int) (cpid : Nat) :
    (nonLeafInsertStep N t1 pid origNode mid cpid).1.rootPageNo = t1.rootPageNo := by
  unfold nonLeafInsertStep
  split <;> rfl

theorem insertHelper_rootPageNo (L N : Nat) : ∀ (fuel : Nat) (t : BTree)
    (pid : Nat) (key : Int) (rid : RecordId) (r : BTree × Nat × Int),
    insertHelper L N fuel t pid key rid = some r → r.1.rootPageNo = t.rootPageNo := by
  intro fuel
  induction fuel with
  | zero => intro t pid key rid r h; simp [insertHelper] at h
  | succ n ih =>
    intro t pid key rid r h
    simp only [insertHelper] at h
    split at h
    · exact absurd h (by simp)
    · rename_i node heq
      obtain rfl : (insertToLeafPage L t pid node key rid) = r := by
        simpa using h
      exact insertToLeafPage_rootPageNo L t pid node key rid
    · rename_i origNode heq
      rcases hrec : insertHelper L N n t
          (origNode.pageNoArray.getD (findIndexNonLeaf origNode key) 0) key rid with _ | r0
      · rw [hrec] at h; exact absurd h (by simp)
      · rw [hrec] at h
        rw [Option.map_some'] at h
        simp only [Option.some.injEq] at h
        have hr0 : r0.1.rootPageNo = t.rootPageNo := ih t _ key rid r0 hrec
        subst h
        split
        · exact hr0
        · rw [nonLeafInsertStep_rootPageNo]
          exact hr0

/-! ## Claim theorems -/

/-- Claim C1 (code bug): with the capacities L = N = 4 the insertion
sequence 1..14 into a fresh index leaves the leaf chain with key
sequence [1,...,10,14,11,12,13], which is not non-decreasing: the code
inserts the promoted key into the right sibling of a split non-leaf at
the unadjusted index, leaving a hole in the node, after which key 14 is
routed into the wrong leaf. -/
theorem leafChain_not_sorted_after_inserts :
    (insertAll 4 4 8 (newBTree 4) c1entries).map (fun t => chainKeys t 32) =
      some [1, 2, 3, 4, 5, 6, 7, 8, 9, 10, 14, 11, 12, 13] ∧
    nonDecreasing [1, 2, 3, 4, 5, 6, 7, 8, 9, 10, 14, 11, 12, 13] = false := by
  constructor
  · decide
  · decide

/-- Claim C2: insertion into a full leaf splits it at index
middleIndex + (insertToLeft then 1 else 0) with middleIndex = L / 2 and
insertToLeft = (insertion index < middleIndex); the new pair goes into
the original leaf at the insertion index when insertToLeft holds, else
into the new leaf at (index - middleIndex); the new leaf is spliced into
the sibling chain and the promoted mid-value is entry 0 of the new
leaf's key array. -/
theorem insertToLeafPage_full_split_spec (L : Nat) (t : BTree) (pid : Nat)
    (node : LeafNodeInt) (key : Int) (rid : RecordId)
    (hfull : isLeafNodeFull L node = true)
    (hpid0 : pid ≠ 0) (hpid : pid - 1 < t.pages.length) :
    let index := findInsertionIndexLeaf node key
    let middleIndex := L / 2
    let insertToLeft := decide (index < middleIndex)
    let halves := splitLeafNode L node (middleIndex + (if insertToLeft then 1 else 0))
    let origAfter := if insertToLeft then insertToLeafNode L halves.1 index key rid else halves.1
    let newAfter :=
      if insertToLeft then halves.2
      else insertToLeafNode L halves.2 (index - middleIndex) key rid
    let newPid := t.pages.length + 1
    let result := insertToLeafPage L t pid node key rid
    result.2.1 = newPid ∧
    result.2.2 = newAfter.keyArray.getD 0 0 ∧
    getPageByPid result.1 pid = some (.leaf { origAfter with rightSibPageNo := newPid }) ∧
    getPageByPid result.1 newPid = some (.leaf { newAfter with rightSibPageNo := node.rightSibPageNo }) := by
  intro index middleIndex insertToLeft halves origAfter newAfter newPid result
  have hsib : origAfter.rightSibPageNo = node.rightSibPageNo := by
    unfold_let origAfter halves
    cases insertToLeft <;> simp [insertToLeafNode, splitLeafNode]
  have hres : result =
      (setPage (setPage (allocPage t (.leaf newAfter)).1 pid
          (.leaf { origAfter with rightSibPageNo := newPid }))
        newPid (.leaf { newAfter with rightSibPageNo := origAfter.rightSibPageNo }),
        newPid, newAfter.keyArray.getD 0 0) := by
    unfold_let result
    unfold insertToLeafPage
    simp only [hfull, Bool.not_true, Bool.false_eq_true, if_false]
    rfl
  have hne : newPid ≠ pid := by unfold_let newPid; omega
  have hnewPid0 : newPid ≠ 0 := by unfold_let newPid; omega
  refine ⟨by rw [hres], by rw [hres], ?_, ?_⟩
  · rw [hres]
    rw [getPageByPid_setPage_ne _ _ _ _ hnewPid0 hpid0 hne]
    exact getPageByPid_setPage_self _ _ _ hpid0
      (by rw [allocPage_pages_length]; omega)
  · rw [hres, hsib]
    exact getPageByPid_setPage_self _ _ _ hnewPid0
      (by rw [setPage_pages_length, allocPage_pages_length]; unfold_let newPid; omega)

/-- Witness for C2: splitting the full leaf [1,2,3,4] by inserting key 5
produces the new right leaf [3,4,5] on the fresh page 2. -/
theorem insertToLeafPage_full_split_spec_witness :
    getPageByPid (insertToLeafPage 4 fullLeafTree 1 fullLeafNode 5 ⟨5, 1⟩).1 2 =
      some (.leaf { keyArray := [3, 4, 5, 0]
                    ridArray := [⟨3, 1⟩, ⟨4, 1⟩, ⟨5, 1⟩, ⟨0, 0⟩]
                    rightSibPageNo := 0 }) :=
  (insertToLeafPage_full_split_spec 4 fullLeafTree 1 fullLeafNode 5 ⟨5, 1⟩
    (by decide) (by decide) (by decide)).2.2.2

/-- Claim C3: a split bubbling into a full non-leaf node splits it with
middleIndex = (N - 1) / 2, insertToLeft = (insIndex < middleIndex),
splitIndex = middleIndex + (insertToLeft then 1 else 0), insertIndex =
(insertToLeft then insIndex else insIndex - middleIndex) and moveKeyUp =
(not insertToLeft and insertIndex = 0); the promoted key is childMid
under moveKeyUp and keyArray at splitIndex otherwise; under moveKeyUp
both resulting siblings are exactly the two split halves (nothing is
inserted), otherwise (childMid, newChildPageId) is inserted into the
original when insertToLeft holds and into the new right node otherwise. -/
theorem insertHelper_nonleaf_full_split_spec (L N fuel : Nat) (t : BTree)
    (pid : Nat) (origNode : NonLeafNodeInt) (key : Int) (rid : RecordId)
    (t1 : BTree) (newChildPageId : Nat) (childMid : Int)
    (hpage : getPageByPid t pid = some (.nonleaf origNode))
    (hrec : insertHelper L N fuel t
      (origNode.pageNoArray.getD (findIndexNonLeaf origNode key) 0) key rid =
      some (t1, newChildPageId, childMid))
    (hcpid : newChildPageId ≠ 0)
    (hfull : isNonLeafNodeFull N origNode = true)
    (hpid0 : pid ≠ 0) (hpid : pid - 1 < t1.pages.length) :
    let insIndex := findIndexNonLeaf origNode childMid
    let middleIndex := (N - 1) / 2
    let insertToLeft := decide (insIndex < middleIndex)
    let splitIndex := middleIndex + (if insertToLeft then 1 else 0)
    let insertIndex := if insertToLeft then insIndex else insIndex - middleIndex
    let moveKeyUp := !insertToLeft && insertIndex == 0
    let halves := splitNonLeafNode N origNode splitIndex moveKeyUp
    let origAfter :=
      if !moveKeyUp && insertToLeft then
        insertToNonLeafNode N halves.1 insertIndex childMid newChildPageId
      else halves.1
    let newAfter :=
      if !moveKeyUp && !insertToLeft then
        insertToNonLeafNode N halves.2 insertIndex childMid newChildPageId
      else halves.2
    let newPid := t1.pages.length + 1
    let result := nonLeafInsertStep N t1 pid origNode childMid newChildPageId
    insertHelper L N (fuel + 1) t pid key rid = some result ∧
    result.2.1 = newPid ∧
    result.2.2 = (if moveKeyUp then childMid else origNode.keyArray.getD splitIndex 0) ∧
    getPageByPid result.1 pid = some (.nonleaf origAfter) ∧
    getPageByPid result.1 newPid = some (.nonleaf newAfter) ∧
    (moveKeyUp = true → origAfter = halves.1 ∧ newAfter = halves.2) := by
  intro insIndex middleIndex insertToLeft splitIndex insertIndex moveKeyUp
    halves origAfter newAfter newPid result
  have hres : result =
      ((allocPage (setPage t1 pid (.nonleaf origAfter)) (.nonleaf newAfter)).1,
        newPid,
        if moveKeyUp then childMid else origNode.keyArray.getD splitIndex 0) := by
    unfold_let result
    unfold nonLeafInsertStep
    simp only [hfull, Bool.not_true, Bool.false_eq_true, if_false, allocPage,
      setPage, List.length_set]
  have hne : newPid ≠ pid := by unfold_let newPid; omega
  have hnewPid0 : newPid ≠ 0 := by unfold_let newPid; omega
  refine ⟨?_, by rw [hres], by rw [hres], ?_, ?_, ?_⟩
  · simp only [insertHelper, hpage, hrec, Option.map_some']
    simp only [hcpid, if_false]
  · rw [hres]
    rw [getPageByPid_alloc_of_lt _ _ _ hpid0 (by rw [setPage_pages_length]; exact hpid)]
    exact getPageByPid_setPage_self _ _ _ hpid0 hpid
  · rw [hres]
    have := getPageByPid_alloc_self (setPage t1 pid (.nonleaf origAfter)) (.nonleaf newAfter)
    rwa [setPage_pages_length] at this
  · intro hmk
    unfold_let origAfter newAfter
    rw [hmk]
    simp

/-- Witness for C3: inserting key 13 into t12 splits the full root
non-leaf via nonLeafInsertStep. -/
theorem insertHelper_nonleaf_full_split_spec_witness :
    insertHelper 4 4 8 t12 3 13 ⟨13, 1⟩ =
      some (nonLeafInsertStep 4 c3childResult.1 3
        { keyArray := [3, 5, 7, 9], pageNoArray := [1, 2, 4, 5, 6] }
        c3childResult.2.2 c3childResult.2.1) :=
  (insertHelper_nonleaf_full_split_spec 4 4 7 t12 3
      { keyArray := [3, 5, 7, 9], pageNoArray := [1, 2, 4, 5, 6] } 13 ⟨13, 1⟩
      c3childResult.1 c3childResult.2.1 c3childResult.2.2
      (by decide) (by decide) (by decide) (by decide) (by decide) (by decide)).1

/-- Claim C4: insertEntry leaves rootPageNo unchanged when the recursive
insert reports no split, and otherwise allocates a fresh non-leaf root
holding the promoted mid-value and the two children, updating rootPageNo
in the meta record to the fresh page id. -/
theorem insertEntry_root_update_spec (L N fuel : Nat) (t : BTree) (key : Int)
    (rid : RecordId) :
    (∀ t1 mid, insertHelper L N fuel t t.rootPageNo key rid = some (t1, 0, mid) →
      insertEntry L N fuel t key rid = some t1 ∧ t1.rootPageNo = t.rootPageNo) ∧
    (∀ t1 newPid mid, insertHelper L N fuel t t.rootPageNo key rid = some (t1, newPid, mid) →
      newPid ≠ 0 →
      ∃ t2, insertEntry L N fuel t key rid = some t2 ∧
        t2.rootPageNo = t1.pages.length + 1 ∧
        getPageByPid t2 t2.rootPageNo = some (.nonleaf
          { keyArray := mid :: List.replicate (N - 1) 0
            pageNoArray := t.rootPageNo :: newPid :: List.replicate (N - 1) 0 }) ∧
        ∀ p, p ≠ 0 → p - 1 < t1.pages.length → getPageByPid t2 p = getPageByPid t1 p) := by
  constructor
  · intro t1 mid h
    constructor
    · unfold insertEntry
      rw [h]
      rfl
    · have := insertHelper_rootPageNo L N fuel t t.rootPageNo key rid (t1, 0, mid) h
      simpa using this
  · intro t1 newPid mid h hn
    refine ⟨{ (allocPage t1 (.nonleaf
        { keyArray := mid :: List.replicate (N - 1) 0
          pageNoArray := t.rootPageNo :: newPid :: List.replicate (N - 1) 0 })).1
        with rootPageNo := t1.pages.length + 1 }, ?_, rfl, ?_, ?_⟩
    · unfold insertEntry
      rw [h]
      simp only [hn, if_false]
      rfl
    · exact getPageByPid_alloc_self t1 _
    · intro p hp0 hp
      exact getPageByPid_alloc_of_lt t1 _ p hp0 hp

/-! ## Scan-state lemmas -/

theorem moveToNextPage_scanExecuting (idx : BTreeIndex) (node : LeafNodeInt) :
    (moveToNextPage idx node).2.scanExecuting = idx.scanExecuting := by
  unfold moveToNextPage
  cases hg : getPageByPid idx.tree node.rightSibPageNo <;> simp [hg]

theorem initEntryIndex_scanExecuting (idx : BTreeIndex) :
    (initEntryIndex idx).2.scanExecuting = idx.scanExecuting := by
  unfold initEntryIndex
  cases hg : getLeafAt idx.tree idx.currentPageData with
  | none => rfl
  | some node =>
    cases hf : findScanIndexLeaf node idx.lowValInt (idx.lowOp == .GTE) with
    | none => simp only [hf]; exact moveToNextPage_scanExecuting idx node
    | some i => simp [hf]

theorem initPageId_scanExecuting : ∀ (fuel : Nat) (idx : BTreeIndex),
    (initPageId fuel idx).2.scanExecuting = idx.scanExecuting := by
  intro fuel
  induction fuel with
  | zero => intro idx; rfl
  | succ n ih =>
    intro idx
    unfold initPageId
    cases hg : getPageByPid idx.tree idx.currentPageNum with
    | none => rfl
    | some pg =>
      cases pg with
      | leaf node => rfl
      | nonleaf node => exact ih _

theorem startScanPosition_scanExecuting (fuel : Nat) (idx : BTreeIndex) :
    (startScanPosition fuel idx).2.scanExecuting = idx.scanExecuting := by
  unfold startScanPosition
  cases hp : initPageId fuel idx with
  | mk e s =>
    have hs : s.scanExecuting = idx.scanExecuting := by
      have := initPageId_scanExecuting fuel idx
      rw [hp] at this
      exact this
    cases e with
    | none =>
      simp only []
      rw [initEntryIndex_scanExecuting]
      exact hs
    | some err => exact hs

/-! ## Remaining claim theorems -/

/-- Claim C5 (code bug): on the single-entry index with an active scan
positioned at its only entry (key 42 within the bounds), scanNext writes
the rid (5, 7) to the out parameter but then, advancing past the last
occupied slot of a leaf whose rightSibPageNo is the 0 sentinel, raises
the buffer-manager invalid-page error instead of returning normally (and
instead of the ScanCompleted that the documentation promises on the
following call). -/
theorem scanNext_invalid_page_at_chain_end :
    (scanNext 4 activeScanIndex emptyRid).2.2 = ⟨5, 7⟩ ∧
    (scanNext 4 activeScanIndex emptyRid).1 = some .invalidPage ∧
    activeScanIndex.scanExecuting = true ∧
    activeScanIndex.nextEntry = 0 := by
  refine ⟨by decide, by decide, by decide, by decide⟩

/-- Claim C6 counterexample: after a normal scan round the stored
lowValInt is 0; the call startScan(5, GTE, 3, LTE) raises BadScanRange,
yet the post-state has lowValInt = 5: the validation error is raised
after the scan state was mutated. -/
theorem startScan_badScanrange_mutates_lowVal :
    idleScanIndex.lowValInt = 0 ∧
    (startScan 8 idleScanIndex 5 .GTE 3 .LTE).1 = some .badScanrange ∧
    (startScan 8 idleScanIndex 5 .GTE 3 .LTE).2.lowValInt = 5 := by
  refine ⟨by decide, by decide, by decide⟩

/-- Claim C6 as amended: BadOperator is raised before any mutation of
the scan state; BadScanRange is raised after lowValInt and highValInt
have been assigned the arguments but before lowOp, highOp, scanExecuting
or currentPageNum are mutated. -/
theorem startScan_validation_spec (fuel : Nat) (idx : BTreeIndex)
    (lo hi : Int) (lop hop : Operator) :
    ((lop ≠ .GT ∧ lop ≠ .GTE) ∨ ((lop = .GT ∨ lop = .GTE) ∧ hop ≠ .LT ∧ hop ≠ .LTE) →
      startScan fuel idx lo lop hi hop = (some .badOpcodes, idx)) ∧
    ((lop = .GT ∨ lop = .GTE) → (hop = .LT ∨ hop = .LTE) → lo > hi →
      startScan fuel idx lo lop hi hop =
        (some .badScanrange, { idx with lowValInt := lo, highValInt := hi })) := by
  constructor
  · intro h
    cases lop <;> cases hop <;>
      first
        | rfl
        | (exfalso; rcases h with ⟨h1, h2⟩ | ⟨h1, h2, h3⟩ <;> simp_all)
  · intro h1 h2 h3
    have hlt : decide (lo > hi) = true := decide_eq_true h3
    rcases h1 with rfl | rfl <;> rcases h2 with rfl | rfl <;>
      simp [startScan, hlt]

/-- Witness for the amended C6: a disallowed low operator is rejected
with no mutation, and an inverted range is rejected with exactly the two
bound fields written. -/
theorem startScan_validation_spec_witness :
    startScan 8 idleScanIndex 7 .LT 9 .LTE = (some .badOpcodes, idleScanIndex) ∧
    startScan 8 idleScanIndex 5 .GT 3 .LT =
      (some .badScanrange, { idleScanIndex with lowValInt := 5, highValInt := 3 }) :=
  ⟨(startScan_validation_spec 8 idleScanIndex 7 9 .LT .LTE).1
      (Or.inl ⟨by decide, by decide⟩),
    (startScan_validation_spec 8 idleScanIndex 5 3 .GT .LT).2
      (Or.inl rfl) (Or.inl rfl) (by decide)⟩

/-- Claim C7 (code bug): on a freshly constructed empty index,
startScan(0, GTE, 100, LTE) does not succeed: the empty root leaf has no
qualifying entry, the code follows the rightSibPageNo sentinel 0 and the
buffer-manager read of page 0 raises inside startScan, so the first
scanNext is never reached with a ScanCompleted. -/
theorem startScan_empty_index_invalid_page :
    (startScan 8 (mkBTreeIndex 4 0 .INTEGER) 0 .GTE 100 .LTE).1 = some .invalidPage ∧
    (startScan 8 (mkBTreeIndex 4 0 .INTEGER) 0 .GTE 100 .LTE).2.currentPageNum = 0 := by
  refine ⟨by decide, by decide⟩

/-- Claim C8: scanNext on an active scan writes the RecordId stored at
the current entry to the out parameter on every outcome (the write
happens before the termination checks), so when ScanCompleted is raised
because the slot is empty the written value is the empty RecordId. -/
theorem scanNext_outRid_spec (L : Nat) (idx : BTreeIndex) (out0 : RecordId)
    (node : LeafNodeInt)
    (hexec : idx.scanExecuting = true)
    (hleaf : getLeafAt idx.tree idx.currentPageData = some node) :
    (scanNext L idx out0).2.2 = node.ridArray.getD idx.nextEntry emptyRid ∧
    (node.ridArray.getD idx.nextEntry emptyRid = emptyRid →
      (scanNext L idx out0).1 = some .indexScanCompleted ∧
      (scanNext L idx out0).2.2 = emptyRid) := by
  have hkey : scanNext L idx out0 =
      (let r := node.ridArray.getD idx.nextEntry emptyRid
       if r == emptyRid then (some .indexScanCompleted, idx, r)
       else
         let val := node.keyArray.getD idx.nextEntry 0
         if decide (val > idx.highValInt) then (some .indexScanCompleted, idx, r)
         else if val == idx.highValInt && idx.highOp == .LT then
           (some .indexScanCompleted, idx, r)
         else
           let adv := setNextEntry L idx
           (adv.1, adv.2, r)) := by
    unfold scanNext
    rw [hexec, hleaf]
    rfl
  constructor
  · rw [hkey]
    dsimp only
    split
    · rfl
    · split
      · rfl
      · split <;> rfl
  · intro he
    rw [hkey]
    dsimp only
    rw [he]
    simp

/-- Witness for C8: an active scan over the empty root leaf of a fresh
index hits an empty slot: ScanCompleted with the empty RecordId written. -/
theorem scanNext_outRid_spec_witness :
    (scanNext 4 { mkBTreeIndex 4 0 .INTEGER with
        scanExecuting := true, currentPageData := 1 } ⟨9, 9⟩).1 =
      some .indexScanCompleted ∧
    (scanNext 4 { mkBTreeIndex 4 0 .INTEGER with
        scanExecuting := true, currentPageData := 1 } ⟨9, 9⟩).2.2 = emptyRid :=
  (scanNext_outRid_spec 4
      { mkBTreeIndex 4 0 .INTEGER with scanExecuting := true, currentPageData := 1 }
      ⟨9, 9⟩ (emptyLeaf 4) (by decide) (by decide)).2 (by decide)

/-- Claim C9: startScan sets scanExecuting before descending, so after
any call that passes operator and range validation the flag is true even
when the descent or leaf positioning raised, and a following endScan
does not raise ScanNotInitialized. -/
theorem startScan_sets_scanExecuting (fuel : Nat) (idx : BTreeIndex)
    (lo hi : Int) (lop hop : Operator)
    (h1 : lop = .GT ∨ lop = .GTE) (h2 : hop = .LT ∨ hop = .LTE)
    (h3 : lo ≤ hi) :
    (startScan fuel idx lo lop hi hop).2.scanExecuting = true ∧
    (endScan (startScan fuel idx lo lop hi hop).2).1 ≠ some .scanNotInitialized := by
  have hlt : decide (lo > hi) = false := decide_eq_false (not_lt.mpr h3)
  have hcore : (startScan fuel idx lo lop hi hop).2.scanExecuting = true := by
    rcases h1 with rfl | rfl <;> rcases h2 with rfl | rfl <;>
    · unfold startScan
      rw [if_neg (by decide), if_neg (by decide)]
      dsimp only
      simp only [hlt, Bool.false_eq_true, if_false]
      rw [startScanPosition_scanExecuting]
  refine ⟨hcore, ?_⟩
  unfold endScan
  rw [hcore]
  simp

/-- Witness for C9: on the empty index the startScan descent raises an
invalid-page error, yet scanExecuting is left true and endScan succeeds. -/
theorem startScan_sets_scanExecuting_witness :
    (startScan 8 (mkBTreeIndex 4 0 .INTEGER) 0 .GTE 100 .LTE).2.scanExecuting = true ∧
    (endScan (startScan 8 (mkBTreeIndex 4 0 .INTEGER) 0 .GTE 100 .LTE).2).1 ≠
      some .scanNotInitialized :=
  startScan_sets_scanExecuting 8 (mkBTreeIndex 4 0 .INTEGER) 0 100 .GTE .LTE
    (Or.inr rfl) (Or.inr rfl) (by decide)

/-! ## Attribute-type noninterference lemmas -/

theorem moveToNextPage_setAttr (idx : BTreeIndex) (a : Datatype) (node : LeafNodeInt) :
    moveToNextPage (setAttr idx a) node =
      ((moveToNextPage idx node).1, setAttr (moveToNextPage idx node).2 a) := by
  obtain ⟨tr, b, off, se, lv, hv, lo, ho, cpn, cpd, ne⟩ := idx
  unfold moveToNextPage setAttr
  dsimp only
  cases hg : getPageByPid tr node.rightSibPageNo <;> simp [hg]

theorem initEntryIndex_setAttr (idx : BTreeIndex) (a : Datatype) :
    initEntryIndex (setAttr idx a) =
      ((initEntryIndex idx).1, setAttr (initEntryIndex idx).2 a) := by
  obtain ⟨tr, b, off, se, lv, hv, lo, ho, cpn, cpd, ne⟩ := idx
  unfold initEntryIndex
  dsimp only [setAttr]
  cases hg : getLeafAt tr cpd with
  | none => simp [hg]
  | some node =>
    cases hf : findScanIndexLeaf node lv (lo == .GTE) with
    | none =>
      simp only [hg, hf]
      simpa [setAttr] using
        moveToNextPage_setAttr ⟨tr, b, off, se, lv, hv, lo, ho, cpn, cpd, ne⟩ a node
    | some i => simp [hg, hf]

theorem initPageId_setAttr : ∀ (fuel : Nat) (idx : BTreeIndex) (a : Datatype),
    initPageId fuel (setAttr idx a) =
      ((initPageId fuel idx).1, setAttr (initPageId fuel idx).2 a) := by
  intro fuel
  induction fuel with
  | zero => intro idx a; rfl
  | succ n ih =>
    intro idx a
    obtain ⟨tr, b, off, se, lv, hv, lo, ho, cpn, cpd, ne⟩ := idx
    unfold initPageId
    dsimp only [setAttr]
    cases hg : getPageByPid tr cpn with
    | none => simp [hg]
    | some pg =>
      cases pg with
      | leaf nd => simp [hg]
      | nonleaf nd =>
        simp only [hg]
        simpa [setAttr] using
          ih ⟨tr, b, off, se, lv, hv, lo, ho,
            nd.pageNoArray.getD (findIndexNonLeaf nd lv) 0, cpn, ne⟩ a

theorem startScanPosition_setAttr (fuel : Nat) (idx : BTreeIndex) (a : Datatype) :
    startScanPosition fuel (setAttr idx a) =
      ((startScanPosition fuel idx).1, setAttr (startScanPosition fuel idx).2 a) := by
  unfold startScanPosition
  rw [initPageId_setAttr]
  cases hp : initPageId fuel idx with
  | mk e s =>
    cases e with
    | none => simpa using initEntryIndex_setAttr s a
    | some err => rfl

theorem setNextEntry_setAttr (L : Nat) (idx : BTreeIndex) (a : Datatype) :
    setNextEntry L (setAttr idx a) =
      ((setNextEntry L idx).1, setAttr (setNextEntry L idx).2 a) := by
  obtain ⟨tr, b, off, se, lv, hv, lo, ho, cpn, cpd, ne⟩ := idx
  unfold setNextEntry
  dsimp only [setAttr]
  cases hg : getLeafAt tr cpd with
  | none => simp [hg]
  | some nd =>
    simp only [hg]
    split
    · simpa [setAttr] using
        moveToNextPage_setAttr ⟨tr, b, off, se, lv, hv, lo, ho, cpn, cpd, ne + 1⟩ a nd
    · rfl

theorem scanNext_setAttr (L : Nat) (idx : BTreeIndex) (a : Datatype) (out : RecordId) :
    scanNext L (setAttr idx a) out =
      ((scanNext L idx out).1, setAttr (scanNext L idx out).2.1 a,
        (scanNext L idx out).2.2) := by
  obtain ⟨tr, b, off, se, lv, hv, lo, ho, cpn, cpd, ne⟩ := idx
  unfold scanNext
  dsimp only [setAttr]
  cases se with
  | false => rfl
  | true =>
    cases hg : getLeafAt tr cpd with
    | none => simp [hg]
    | some nd =>
      simp only [hg]
      split
      · rfl
      · split
        · rfl
        · split
          · rfl
          · split
            · rfl
            · have h := setNextEntry_setAttr L ⟨tr, b, off, true, lv, hv, lo, ho, cpn, cpd, ne⟩ a
              dsimp only [setAttr] at h
              rw [h]

theorem startScan_setAttr (fuel : Nat) (idx : BTreeIndex) (a : Datatype)
    (lo hi : Int) (lop hop : Operator) :
    startScan fuel (setAttr idx a) lo lop hi hop =
      ((startScan fuel idx lo lop hi hop).1,
        setAttr (startScan fuel idx lo lop hi hop).2 a) := by
  obtain ⟨tr, b, off, se, lv, hv, lo0, ho0, cpn, cpd, ne⟩ := idx
  unfold startScan
  dsimp only [setAttr]
  split
  · rfl
  · split
    · rfl
    · split
      · rfl
      · have h := startScanPosition_setAttr fuel
          ⟨tr, b, off, true, lo, hi, lop, hop, tr.rootPageNo, cpd, ne⟩ a
        dsimp only [setAttr] at h
        rw [h]

theorem insertEntryIdx_setAttr (L N fuel : Nat) (idx : BTreeIndex)
    (a : Datatype) (key : Int) (rid : RecordId) :
    insertEntryIdx L N fuel (setAttr idx a) key rid =
      (insertEntryIdx L N fuel idx key rid).map (fun j => setAttr j a) := by
  obtain ⟨tr, b, off, se, lv, hv, lo, ho, cpn, cpd, ne⟩ := idx
  unfold insertEntryIdx
  dsimp only [setAttr]
  cases he : insertEntry L N fuel tr key rid <;> simp [he]

theorem buildIndex_setAttr (L N fuel off : Nat) (a b : Datatype)
    (records : List (List Nat × RecordId)) :
    buildIndex L N fuel a off records =
      (buildIndex L N fuel b off records).map (fun j => setAttr j a) := by
  unfold buildIndex
  have key : ∀ (recs : List (List Nat × RecordId)) (acc : Option BTreeIndex),
      recs.foldl
        (fun acc r => acc.bind (fun idx => insertEntryIdx L N fuel idx (readInt32 r.1 off) r.2))
        (acc.map (fun j => setAttr j a)) =
      (recs.foldl
        (fun acc r => acc.bind (fun idx => insertEntryIdx L N fuel idx (readInt32 r.1 off) r.2))
        acc).map (fun j => setAttr j a) := by
    intro recs
    induction recs with
    | nil => intro acc; rfl
    | cons r rest ih =>
      intro acc
      rw [List.foldl_cons, List.foldl_cons]
      have hbind : (acc.map (fun j => setAttr j a)).bind
            (fun idx => insertEntryIdx L N fuel idx (readInt32 r.1 off) r.2) =
          (acc.bind (fun idx => insertEntryIdx L N fuel idx (readInt32 r.1 off) r.2)).map
            (fun j => setAttr j a) := by
        cases acc with
        | none => rfl
        | some idx => simpa using insertEntryIdx_setAttr L N fuel idx a (readInt32 r.1 off) r.2
      rw [hbind, ih]
  have hstart : some (mkBTreeIndex L off a) =
      (some (mkBTreeIndex L off b)).map (fun j => setAttr j a) := by
    simp [mkBTreeIndex, setAttr]
  rw [hstart, key]

/-- Claim C10: the constructor (with bulk build), insert, and the scan
operations never consult the stored attribute type: running them with
different attribute types gives identical trees, identical errors and
identical scan output, the only difference being the stored attribute
type member itself. -/
theorem attrType_noninterference (L N fuel off : Nat) (a b : Datatype)
    (records : List (List Nat × RecordId)) :
    buildIndex L N fuel a off records =
      (buildIndex L N fuel b off records).map (fun j => setAttr j a) ∧
    (∀ (idx : BTreeIndex) (key : Int) (rid : RecordId),
      insertEntryIdx L N fuel (setAttr idx a) key rid =
        (insertEntryIdx L N fuel idx key rid).map (fun j => setAttr j a)) ∧
    (∀ (sfuel : Nat) (idx : BTreeIndex) (lo hi : Int) (lop hop : Operator),
      startScan sfuel (setAttr idx a) lo lop hi hop =
        ((startScan sfuel idx lo lop hi hop).1,
          setAttr (startScan sfuel idx lo lop hi hop).2 a)) ∧
    (∀ (Lp : Nat) (idx : BTreeIndex) (out : RecordId),
      scanNext Lp (setAttr idx a) out =
        ((scanNext Lp idx out).1, setAttr (scanNext Lp idx out).2.1 a,
          (scanNext Lp idx out).2.2)) :=
  ⟨buildIndex_setAttr L N fuel off a b records,
    fun idx key rid => insertEntryIdx_setAttr L N fuel idx a key rid,
    fun sfuel idx lo hi lop hop => startScan_setAttr sfuel idx a lo hi lop hop,
    fun Lp idx out => scanNext_setAttr Lp idx a out⟩

/-- Witness for C4: inserting key 1 into a fresh index reports no split
and leaves rootPageNo unchanged, and inserting key 5 into the full-leaf
tree grows a new root. -/
theorem insertEntry_root_update_spec_witness :
    (insertEntry 4 4 8 (newBTree 4) 1 ⟨1, 1⟩ = some c4noSplitResult.1 ∧
      c4noSplitResult.1.rootPageNo = (newBTree 4).rootPageNo) ∧
    ∃ t2, insertEntry 4 4 8 fullLeafTree 5 ⟨5, 1⟩ = some t2 ∧
      t2.rootPageNo = (insertToLeafPage 4 fullLeafTree 1 fullLeafNode 5 ⟨5, 1⟩).1.pages.length + 1 ∧
      getPageByPid t2 t2.rootPageNo = some (.nonleaf
        { keyArray := (3 : Int) :: List.replicate 3 0
          pageNoArray := 1 :: 2 :: List.replicate 3 0 }) ∧
      ∀ p, p ≠ 0 →
        p - 1 < (insertToLeafPage 4 fullLeafTree 1 fullLeafNode 5 ⟨5, 1⟩).1.pages.length →
        getPageByPid t2 p = getPageByPid (insertToLeafPage 4 fullLeafTree 1 fullLeafNode 5 ⟨5, 1⟩).1 p :=
  ⟨(insertEntry_root_update_spec 4 4 8 (newBTree 4) 1 ⟨1, 1⟩).1
      c4noSplitResult.1 c4noSplitResult.2.2 (by decide),
    (insertEntry_root_update_spec 4 4 8 fullLeafTree 5 ⟨5, 1⟩).2
      (insertToLeafPage 4 fullLeafTree 1 fullLeafNode 5 ⟨5, 1⟩).1 2 3 (by decide) (by decide)⟩

end BadgerDB
